import Mathlib

/-!
Verification development for the Berlin public-transport map backend
(position cache, poll scheduler, bounding-box fetcher/aggregator,
rate-limit tracker, health endpoint).

The JavaScript sources are shallowly embedded:
* A JS `Map` (insertion-ordered, unique string keys) is modelled as an
  association list `List (String × α)`; `mapSet` overwrites an existing
  key in place (keeping its insertion position) and appends a fresh key
  at the end, exactly as `Map.prototype.set` does; `values()` is
  `List.map Prod.snd`, `size` is `List.length`.
* Timestamps (`Date.now()`, `new Date()`) are integers (milliseconds);
  every function that reads the clock takes the current time `now` as an
  explicit argument.
* Geographic coordinates are only ever copied and compared by the code
  under verification (never computed with), so they are modelled as
  integers.
-/

namespace JsMap

/-- JS `Map.prototype.get`: first (only, since keys are unique) entry with
the given key. -/
def mapGet : List (String × α) → String → Option α
  | [], _ => none
  | p :: rest, k => if p.1 = k then some p.2 else mapGet rest k

/-- JS `Map.prototype.set`: overwrite the entry with the given key in
place, or append a fresh entry at the end. -/
def mapSet : List (String × α) → String → α → List (String × α)
  | [], k, v => [(k, v)]
  | p :: rest, k, v => if p.1 = k then (k, v) :: rest else p :: mapSet rest k v

theorem mapGet_nil (k : String) : mapGet ([] : List (String × α)) k = none := rfl

theorem mapGet_append (m1 m2 : List (String × α)) (k : String) :
    mapGet (m1 ++ m2) k =
      match mapGet m1 k with
      | some v => some v
      | none => mapGet m2 k := by
  induction m1 with
  | nil => simp [mapGet]
  | cons p rest ih =>
    by_cases hp : p.1 = k <;> simp [mapGet, hp, ih]

theorem mapSet_of_not_mem (m : List (String × α)) (k : String) (v : α)
    (h : mapGet m k = none) : mapSet m k v = m ++ [(k, v)] := by
  induction m with
  | nil => simp [mapSet]
  | cons p rest ih =>
    by_cases hp : p.1 = k
    · simp [mapGet, hp] at h
    · simp only [mapGet, hp, if_false] at h
      simp [mapSet, hp, ih h]

theorem mapGet_isSome_iff_mem_keys (m : List (String × α)) (k : String) :
    (mapGet m k).isSome ↔ k ∈ m.map Prod.fst := by
  induction m with
  | nil => simp [mapGet]
  | cons p rest ih =>
    by_cases hp : p.1 = k
    · simp [mapGet, hp]
    · have : ¬ k = p.1 := fun h => hp h.symm
      simp [mapGet, hp, ih, this]

theorem mapGet_mapSet (m : List (String × α)) (k k' : String) (v : α) :
    mapGet (mapSet m k v) k' = if k = k' then some v else mapGet m k' := by
  induction m with
  | nil =>
    by_cases h : k = k' <;> simp [mapSet, mapGet, h]
  | cons p rest ih =>
    by_cases hp : p.1 = k
    · by_cases h : k = k' <;> simp [mapSet, mapGet, hp, h]
    · simp only [mapSet, hp, if_false]
      by_cases h : p.1 = k'
      · have : ¬ k = k' := fun hk => hp (hk ▸ h)
        simp [mapGet, h, this]
      · simp [mapGet, h, ih]

/-- Keys after `set`: unchanged if the key was present, otherwise the key
is appended. -/
theorem mapSet_keys (m : List (String × α)) (k : String) (v : α) :
    (mapSet m k v).map Prod.fst =
      if (mapGet m k).isSome then m.map Prod.fst else m.map Prod.fst ++ [k] := by
  induction m with
  | nil => simp [mapSet, mapGet]
  | cons p rest ih =>
    by_cases hp : p.1 = k
    · simp [mapSet, mapGet, hp]
    · simp only [mapSet, hp, if_false, List.map_cons, mapGet, ih]
      by_cases h : (mapGet rest k).isSome <;> simp [h]

theorem mapGet_foldl_mapSet {β : Type} (key : β → String) (f : β → α) (ms : List β) :
    ∀ (acc : List (String × α)) (id : String),
      mapGet (ms.foldl (fun m x => mapSet m (key x) (f x)) acc) id =
        match ms.reverse.find? (fun x => key x == id) with
        | some x => some (f x)
        | none => mapGet acc id := by
  induction ms with
  | nil => intro acc id; simp
  | cons y rest ih =>
    intro acc id
    simp only [List.foldl_cons, List.reverse_cons, List.find?_append]
    rw [ih]
    cases hfind : rest.reverse.find? (fun x => key x == id) with
    | some x => simp [hfind]
    | none =>
      simp only [hfind, Option.orElse_none, Option.none_orElse, mapGet_mapSet]
      by_cases h : key y = id
      · simp [List.find?, h]
      · have : ¬ (key y == id) = true := by simpa using h
        simp [List.find?, h, this]

theorem keys_foldl_mapSet {β : Type} (key : β → String) (f : β → α) (ms : List β) :
    ∀ (acc : List (String × α)),
      (ms.foldl (fun m x => mapSet m (key x) (f x)) acc).map Prod.fst =
        (ms.map key).foldl (fun ks k => if k ∈ ks then ks else ks ++ [k])
          (acc.map Prod.fst) := by
  induction ms with
  | nil => intro acc; simp
  | cons y rest ih =>
    intro acc
    simp only [List.foldl_cons, List.map_cons]
    rw [ih, mapSet_keys]
    by_cases h : key y ∈ acc.map Prod.fst
    · have hs : (mapGet acc (key y)).isSome = true := (mapGet_isSome_iff_mem_keys _ _).mpr h
      simp [hs, h]
    · have hs : (mapGet acc (key y)).isSome = false := by
        rw [Bool.eq_false_iff]
        intro hc
        exact h ((mapGet_isSome_iff_mem_keys _ _).mp hc)
      simp [hs, h]

end JsMap

open JsMap

/-- The deduplication the spec describes: traverse the flattened
sequence, keep the first occurrence of each key, discard later
duplicates, preserving order. -/
def keepFirstBy {β : Type} (key : β → String) : List β → List β
  | [] => []
  | x :: xs => x :: keepFirstBy key (xs.filter (fun y => !(key y == key x)))
termination_by l => l.length
decreasing_by
  simp only [List.length_cons]
  exact Nat.lt_succ_of_le (List.length_filter_le _ _)

theorem keepFirstBy_nil {β : Type} (key : β → String) :
    keepFirstBy key [] = [] := by
  rw [keepFirstBy]

theorem keepFirstBy_cons {β : Type} (key : β → String) (x : β) (xs : List β) :
    keepFirstBy key (x :: xs) =
      x :: keepFirstBy key (xs.filter (fun y => !(key y == key x))) := by
  rw [keepFirstBy]

theorem mem_of_mem_keepFirstBy {β : Type} (key : β → String) :
    ∀ (l : List β) (y : β), y ∈ keepFirstBy key l → y ∈ l
  | [], y, h => by rw [keepFirstBy_nil] at h; exact absurd h (List.not_mem_nil y)
  | x :: xs, y, h => by
    rw [keepFirstBy_cons] at h
    rcases List.mem_cons.mp h with h | h
    · exact h ▸ List.mem_cons_self x xs
    · exact List.mem_cons_of_mem x (List.mem_of_mem_filter (mem_of_mem_keepFirstBy key _ y h))
termination_by l => l.length
decreasing_by
  simp only [List.length_cons]
  exact Nat.lt_succ_of_le (List.length_filter_le _ _)

theorem keys_nodup_keepFirstBy {β : Type} (key : β → String) :
    ∀ (l : List β), ((keepFirstBy key l).map key).Nodup
  | [] => by simp [keepFirstBy_nil]
  | x :: xs => by
    rw [keepFirstBy_cons, List.map_cons, List.nodup_cons]
    refine ⟨?_, keys_nodup_keepFirstBy key _⟩
    intro hmem
    rcases List.mem_map.mp hmem with ⟨y, hy, hkey⟩
    have := List.of_mem_filter (mem_of_mem_keepFirstBy key _ y hy)
    simp [hkey] at this
termination_by l => l.length
decreasing_by
  simp only [List.length_cons]
  exact Nat.lt_succ_of_le (List.length_filter_le _ _)

theorem mem_keys_keepFirstBy {β : Type} (key : β → String) :
    ∀ (l : List β) (k : String), k ∈ (keepFirstBy key l).map key ↔ k ∈ l.map key
  | [], k => by rw [keepFirstBy_nil]
  | x :: xs, k => by
    rw [keepFirstBy_cons, List.map_cons, List.map_cons, List.mem_cons, List.mem_cons]
    constructor
    · rintro (h | h)
      · exact Or.inl h
      · rcases List.mem_map.mp h with ⟨y, hy, hkey⟩
        exact Or.inr (List.mem_map.mpr
          ⟨y, List.mem_of_mem_filter (mem_of_mem_keepFirstBy key _ y hy), hkey⟩)
    · rintro (h | h)
      · exact Or.inl h
      · by_cases hk : k = key x
        · exact Or.inl hk
        · rcases List.mem_map.mp h with ⟨y, hy, hkey⟩
          refine Or.inr ((mem_keys_keepFirstBy key _ k).mpr (List.mem_map.mpr ⟨y, ?_, hkey⟩))
          refine List.mem_filter.mpr ⟨hy, ?_⟩
          simp only [Bool.not_eq_eq_eq_not, Bool.not_true, beq_eq_false_iff_ne, ne_eq]
          intro hcontra
          exact hk (by rw [← hkey, hcontra])
termination_by l => l.length
decreasing_by
  simp only [List.length_cons]
  exact Nat.lt_succ_of_le (List.length_filter_le _ _)

theorem foldl_insKey_eq_keepFirstBy :
    ∀ (l ks : List String),
      l.foldl (fun ks k => if k ∈ ks then ks else ks ++ [k]) ks =
        ks ++ keepFirstBy (fun s => s) (l.filter (fun k => decide (k ∉ ks))) := by
  intro l
  induction l with
  | nil => intro ks; simp [keepFirstBy_nil]
  | cons k rest ih =>
    intro ks
    by_cases hk : k ∈ ks
    · have hdec : decide (k ∉ ks) = false := by simpa using hk
      simp only [List.foldl_cons, List.filter_cons, hdec, Bool.false_eq_true, if_false]
      rw [if_pos hk]
      exact ih ks
    · have hdec : decide (k ∉ ks) = true := by simpa using hk
      simp only [List.foldl_cons, List.filter_cons, hdec, if_true]
      rw [if_neg hk, ih (ks ++ [k]), keepFirstBy_cons, List.append_assoc]
      have hpt : ∀ a : String,
          decide (a ∉ ks ++ [k]) = (!(a == k) && decide (a ∉ ks)) := by
        intro a
        by_cases h1 : a = k <;> by_cases h2 : a ∈ ks <;> simp [h1, h2]
      rw [List.filter_filter]
      rw [show (fun a => decide (a ∉ ks ++ [k])) =
            (fun a => (!(a == k) && decide (a ∉ ks))) from funext hpt]
      rfl

theorem keepFirstBy_length_eq_dedup_length (l : List String) :
    (keepFirstBy (fun s => s) l).length = l.dedup.length := by
  have h1 : (keepFirstBy (fun s => s) l).Nodup := by
    have := keys_nodup_keepFirstBy (fun s => s) l
    simpa using this
  have h2 : l.dedup.Nodup := List.nodup_dedup l
  have hm : ∀ k, k ∈ keepFirstBy (fun s => s) l ↔ k ∈ l.dedup := by
    intro k
    rw [List.mem_dedup]
    have := mem_keys_keepFirstBy (fun s => s) l k
    simpa using this
  have hfs : (keepFirstBy (fun s => s) l).toFinset = l.dedup.toFinset := by
    ext k
    simp only [List.mem_toFinset, hm]
  calc (keepFirstBy (fun s => s) l).length
      = (keepFirstBy (fun s => s) l).toFinset.card := (List.toFinset_card_of_nodup h1).symm
    _ = l.dedup.toFinset.card := by rw [hfs]
    _ = l.dedup.length := List.toFinset_card_of_nodup h2

theorem countP_keepFirstBy {β : Type} (key : β → String) (l : List β) (id : String) :
    (keepFirstBy key l).countP (fun x => key x == id) =
      if id ∈ l.map key then 1 else 0 := by
  have hcnt : (keepFirstBy key l).countP (fun x => key x == id) =
      ((keepFirstBy key l).map key).count id := by
    rw [List.count, List.countP_map]
    rfl
  rw [hcnt]
  by_cases h : id ∈ l.map key
  · rw [if_pos h]
    exact List.count_eq_one_of_mem (keys_nodup_keepFirstBy key l)
      ((mem_keys_keepFirstBy key l id).mpr h)
  · rw [if_neg h]
    exact List.count_eq_zero_of_not_mem
      (fun hc => h ((mem_keys_keepFirstBy key l id).mp hc))

namespace Cache

/-- A normalized movement record, as produced by the fetcher
(`vbbPoller.js` / `rateLimitTracker.js` poller document, `fetchBox`):
`(tripId, name, direction, latitude, longitude, type)`.  The field the
spec calls `category` is named `type` in the source; Lean reserves that
word, so the field is called `typeTag` here. -/
structure Movement where
  name : String
  direction : String
  tripId : String
  latitude : Int
  longitude : Int
  typeTag : String
  deriving Repr, DecidableEq

/-- The `current` slot of a cached vehicle: the spread of the incoming
movement plus the capture timestamp (`...newMovement` with `timestamp: new Date()`). -/
structure VehicleCurrent where
  name : String
  direction : String
  tripId : String
  latitude : Int
  longitude : Int
  typeTag : String
  timestamp : Int
  deriving Repr, DecidableEq

/-- The `previous` slot: coordinates and capture time only. -/
structure VehiclePrevious where
  latitude : Int
  longitude : Int
  timestamp : Int
  deriving Repr, DecidableEq

/-- One tracked vehicle in the cache (`cache.js`, third revision). -/
structure Vehicle where
  current : VehicleCurrent
  previous : Option VehiclePrevious
  firstSeen : Int
  deriving Repr, DecidableEq

/-- The private cache state of `cache.js` (third revision, the one with
the staleness guard and `consecutiveEmptyUpdates`). -/
structure CacheState where
  movements : List (String × Vehicle)
  lastUpdated : Option Int
  updateCount : Nat
  lastEmptyUpdate : Option Int
  consecutiveEmptyUpdates : Nat
  deriving Repr, DecidableEq

/-- The initial module-level state of `cache.js`. -/
def initialCache : CacheState :=
  { movements := []
    lastUpdated := none
    updateCount := 0
    lastEmptyUpdate := none
    consecutiveEmptyUpdates := 0 }

/-- The spread `...newMovement` plus `timestamp: new Date()`. -/
def currentOf (nm : Movement) (now : Int) : VehicleCurrent :=
  { name := nm.name
    direction := nm.direction
    tripId := nm.tripId
    latitude := nm.latitude
    longitude := nm.longitude
    typeTag := nm.typeTag
    timestamp := now }

/-- The vehicle built for one incoming movement, given the entry (if
any) the OLD cache holds for its trip id — the two branches of the loop
body in `update`. -/
def mkVehicle (old : Option Vehicle) (nm : Movement) (now : Int) : Vehicle :=
  match old with
  | some existing =>
    { current := currentOf nm now
      previous := some
        { latitude := existing.current.latitude
          longitude := existing.current.longitude
          timestamp := existing.current.timestamp }
      firstSeen := existing.firstSeen }
  | none =>
    { current := currentOf nm now
      previous := none
      firstSeen := now }

/-- Source `cache.js` (third revision) `update(movements)`.  Empty batch:
staleness guard — bump `consecutiveEmptyUpdates`, record
`lastEmptyUpdate`, return without touching anything else.  Non-empty
batch: reset the counter, rebuild the vehicle map from scratch (lookups
of existing vehicles go against the OLD map), swap it in, stamp
`lastUpdated`, bump `updateCount`. -/
def update (movements : List Movement) (now : Int) (c : CacheState) : CacheState :=
  if movements.length = 0 then
    { c with
      consecutiveEmptyUpdates := c.consecutiveEmptyUpdates + 1
      lastEmptyUpdate := some now }
  else
    let updatedVehicles :=
      movements.foldl
        (fun m nm => mapSet m nm.tripId (mkVehicle (mapGet c.movements nm.tripId) nm now))
        []
    { movements := updatedVehicles
      lastUpdated := some now
      updateCount := c.updateCount + 1
      lastEmptyUpdate := c.lastEmptyUpdate
      consecutiveEmptyUpdates := 0 }

/-- The record returned by `cache.js` `getStats()`.  `isHealthy` in the
source is the truthy value `cache.lastUpdated && (now - cache.lastUpdated) < 60000`;
modelled as the Bool it is truthy-equivalent to. -/
structure CacheStats where
  count : Nat
  lastUpdated : Option Int
  ageMs : Option Int
  updateCount : Nat
  isHealthy : Bool
  deriving Repr, DecidableEq

/-- Source `cache.js` `getStats()`. -/
def getStats (now : Int) (c : CacheState) : CacheStats :=
  { count := c.movements.length
    lastUpdated := c.lastUpdated
    ageMs := c.lastUpdated.map (fun t => now - t)
    updateCount := c.updateCount
    isHealthy :=
      match c.lastUpdated with
      | none => false
      | some t => decide (now - t < 60000) }

/-- The last movement in `b` whose trip id is `id` — the occurrence that
survives the `Map.set` overwrites inside `update`. -/
def lastOcc (b : List Movement) (id : String) : Option Movement :=
  b.reverse.find? (fun nm => nm.tripId == id)

theorem lastOcc_tripId {b : List Movement} {id : String} {nm : Movement}
    (h : lastOcc b id = some nm) : nm.tripId = id := by
  have := List.find?_some h
  simpa using this

theorem lastOcc_mem {b : List Movement} {id : String} {nm : Movement}
    (h : lastOcc b id = some nm) : nm ∈ b :=
  List.mem_reverse.mp (List.mem_of_find?_eq_some h)

theorem update_nonempty (b : List Movement) (now : Int) (c : CacheState) (hb : b ≠ []) :
    update b now c =
      { movements :=
          b.foldl
            (fun m nm => mapSet m nm.tripId (mkVehicle (mapGet c.movements nm.tripId) nm now))
            []
        lastUpdated := some now
        updateCount := c.updateCount + 1
        lastEmptyUpdate := c.lastEmptyUpdate
        consecutiveEmptyUpdates := 0 } := by
  have h : ¬ b.length = 0 := by simpa [List.length_eq_zero] using hb
  rw [update, if_neg h]

/-- What the rebuilt map holds for any trip id: the entry built from the
LAST occurrence of that id in the batch (with the old cache consulted
for the previous position), or nothing if the id is not in the batch. -/
theorem update_mapGet (b : List Movement) (now : Int) (c : CacheState) (hb : b ≠ [])
    (id : String) :
    mapGet (update b now c).movements id =
      (lastOcc b id).map (fun nm => mkVehicle (mapGet c.movements nm.tripId) nm now) := by
  rw [update_nonempty b now c hb]
  show mapGet
      (b.foldl
        (fun m nm => mapSet m nm.tripId (mkVehicle (mapGet c.movements nm.tripId) nm now)) [])
      id = _
  rw [mapGet_foldl_mapSet (fun nm => nm.tripId)
    (fun nm => mkVehicle (mapGet c.movements nm.tripId) nm now) b [] id]
  cases hfind : b.reverse.find? (fun nm => nm.tripId == id) with
  | none => simp [lastOcc, hfind, mapGet]
  | some nm => simp [lastOcc, hfind]

/-- The keys of the rebuilt map are the batch's trip ids, first
occurrence kept, duplicates dropped. -/
theorem update_keys (b : List Movement) (now : Int) (c : CacheState) (hb : b ≠ []) :
    (update b now c).movements.map Prod.fst =
      keepFirstBy (fun s => s) (b.map (fun nm => nm.tripId)) := by
  rw [update_nonempty b now c hb]
  show (List.map Prod.fst
      (b.foldl
        (fun m nm => mapSet m nm.tripId (mkVehicle (mapGet c.movements nm.tripId) nm now)) []))
      = _
  rw [keys_foldl_mapSet (fun nm => nm.tripId)
    (fun nm => mkVehicle (mapGet c.movements nm.tripId) nm now) b []]
  rw [List.map_nil, foldl_insKey_eq_keepFirstBy]
  simp

theorem update_size_distinct (b : List Movement) (now : Int) (c : CacheState) (hb : b ≠ []) :
    (update b now c).movements.length = (b.map (fun nm => nm.tripId)).dedup.length := by
  have h := update_keys b now c hb
  have hlen : (update b now c).movements.length =
      ((update b now c).movements.map Prod.fst).length := (List.length_map _ _).symm
  rw [hlen, h, keepFirstBy_length_eq_dedup_length]

/-- Source `cache.js` module initialisation followed by a sequence of `update`
calls, each with its batch and wall-clock time. -/
def applyUpdates (h : List (List Movement × Int)) (c : CacheState) : CacheState :=
  h.foldl (fun c p => update p.1 p.2 c) c

theorem update_lastUpdated (b : List Movement) (now : Int) (c : CacheState) :
    (update b now c).lastUpdated = if b.length = 0 then c.lastUpdated else some now := by
  rw [update]
  split <;> rfl

theorem applyUpdates_lastUpdated_none (h : List (List Movement × Int)) :
    ∀ (c : CacheState),
      (applyUpdates h c).lastUpdated = none ↔
        (c.lastUpdated = none ∧ ∀ p ∈ h, p.1 = []) := by
  induction h with
  | nil => intro c; simp [applyUpdates]
  | cons p rest ih =>
    intro c
    show (applyUpdates rest (update p.1 p.2 c)).lastUpdated = none ↔ _
    rw [ih (update p.1 p.2 c), update_lastUpdated]
    by_cases hp : p.1.length = 0
    · have hnil : p.1 = [] := List.length_eq_zero.mp hp
      simp [hp, hnil]
    · have hnil : ¬ p.1 = [] := fun hc => hp (by simp [hc])
      simp [hp, hnil]

theorem mkVehicle_current (old : Option Vehicle) (nm : Movement) (now : Int) :
    (mkVehicle old nm now).current = currentOf nm now := by
  cases old <;> rfl

theorem lastOcc_eq_none_of_not_mem {b : List Movement} {id : String}
    (h : id ∉ b.map (fun nm => nm.tripId)) : lastOcc b id = none := by
  rw [lastOcc, List.find?_eq_none]
  intro a ha hcontra
  exact h (List.mem_map.mpr ⟨a, List.mem_reverse.mp ha, by simpa using hcontra⟩)

theorem lastOcc_ne_nil {b : List Movement} {id : String} {nm : Movement}
    (h : lastOcc b id = some nm) : b ≠ [] := by
  intro hb
  subst hb
  simp [lastOcc] at h

end Cache

namespace Poller

/-- Field `movement.line` of the raw upstream payload. -/
structure RawLine where
  name : String
  product : String
  deriving Repr, DecidableEq

/-- Field `movement.location` of the raw upstream payload. -/
structure RawLocation where
  latitude : Int
  longitude : Int
  deriving Repr, DecidableEq

/-- A raw movement as returned by the upstream radar endpoint. -/
structure RawMovement where
  line : RawLine
  direction : String
  tripId : String
  location : RawLocation
  deriving Repr, DecidableEq

/-- The observable outcome of the HTTP exchange for one tile, as
`fetchBox` distinguishes them: the `fetch`/`json` call threw, the
response was non-success (`!response.ok`), or a parsed body whose
`movements` field may be missing (`data.movements || []`). -/
inductive TileResponse where
  | networkError : TileResponse
  | httpError (status : Nat) : TileResponse
  | success (movements : Option (List RawMovement)) : TileResponse
  deriving Repr, DecidableEq

/-- The per-movement transformation inside `fetchBox`. -/
def normalizeMovement (m : RawMovement) : Cache.Movement :=
  { name := m.line.name
    direction := m.direction
    tripId := m.tripId
    latitude := m.location.latitude
    longitude := m.location.longitude
    typeTag := m.line.product }

/-- Function `fetchBox` from the poller (`rateLimitTracker.js` poller document /
`vbbPoller.js`): never raises; both error paths return `[]` for that
tile; on success it maps the raw movements to the normalized shape. -/
def fetchBox : TileResponse → List Cache.Movement
  | .networkError => []
  | .httpError _ => []
  | .success movements => (movements.getD []).map normalizeMovement

/-- A response on which `fetchBox` took one of its two error paths. -/
def isFailure : TileResponse → Bool
  | .success _ => false
  | _ => true

/-- The pure aggregation step of `fetchAllBoxes`: flatten already done
by the caller; deduplicate by `tripId` keeping the first occurrence
(the `seen` map), then `Array.from(seen.values())` in insertion order. -/
def aggregateDedup (ms : List Cache.Movement) : List Cache.Movement :=
  (ms.foldl
    (fun seen m => if (mapGet seen m.tripId).isSome then seen else mapSet seen m.tripId m)
    []).map Prod.snd

/-- Function `fetchAllBoxes`, given the settled per-tile responses in tile
configuration order: per-tile `fetchBox`, flatten, deduplicate. -/
def fetchAllBoxes (responses : List TileResponse) : List Cache.Movement :=
  aggregateDedup ((responses.map fetchBox).flatten)

/-- The aggregation applied to the settled per-tile RESULT arrays (the
part of `fetchAllBoxes` after `Promise.all`): `results.flat()` then the
seen-map deduplication. -/
def aggregateResults (results : List (List Cache.Movement)) : List Cache.Movement :=
  aggregateDedup results.flatten

theorem fetchAllBoxes_eq_aggregateResults (responses : List TileResponse) :
    fetchAllBoxes responses = aggregateResults (responses.map fetchBox) := rfl

theorem aggregateDedup_foldl_general (ms : List Cache.Movement) :
    ∀ (acc : List (String × Cache.Movement)),
      ((ms.foldl
          (fun s m => if (mapGet s m.tripId).isSome then s else mapSet s m.tripId m)
          acc).map Prod.snd)
        = acc.map Prod.snd ++
          keepFirstBy (fun m => m.tripId)
            (ms.filter (fun m => !(mapGet acc m.tripId).isSome)) := by
  induction ms with
  | nil => intro acc; simp [keepFirstBy_nil]
  | cons m rest ih =>
    intro acc
    by_cases h : (mapGet acc m.tripId).isSome
    · simp only [List.foldl_cons, h, if_true, List.filter_cons, Bool.not_true,
        Bool.false_eq_true, if_false]
      exact ih acc
    · have hnone : mapGet acc m.tripId = none := Option.not_isSome_iff_eq_none.mp h
      have hfalse : (mapGet acc m.tripId).isSome = false := by rw [hnone]; rfl
      simp only [List.foldl_cons, hfalse, Bool.false_eq_true, if_false, List.filter_cons,
        Bool.not_false, if_true]
      rw [mapSet_of_not_mem acc m.tripId m hnone, ih (acc ++ [(m.tripId, m)])]
      rw [keepFirstBy_cons, List.map_append]
      have hpt : ∀ a : Cache.Movement,
          (!(mapGet (acc ++ [(m.tripId, m)]) a.tripId).isSome) =
            (!(a.tripId == m.tripId) && !(mapGet acc a.tripId).isSome) := by
        intro a
        rw [mapGet_append]
        cases hga : mapGet acc a.tripId with
        | some v => simp
        | none =>
          by_cases he : m.tripId = a.tripId
          · simp [mapGet, he]
          · have : ¬ (a.tripId == m.tripId) = true := by
              simpa using fun hc => he hc.symm
            simp [mapGet, he, this]
      rw [show (fun a : Cache.Movement => !(mapGet (acc ++ [(m.tripId, m)]) a.tripId).isSome) =
            (fun a : Cache.Movement =>
              (!(a.tripId == m.tripId) && !(mapGet acc a.tripId).isSome)) from funext hpt]
      rw [← List.filter_filter]
      simp

/-- The code's seen-map deduplication IS the spec's keep-the-first-occurrence
deduplication. -/
theorem aggregateDedup_eq_keepFirstBy (ms : List Cache.Movement) :
    aggregateDedup ms = keepFirstBy (fun m => m.tripId) ms := by
  rw [aggregateDedup, aggregateDedup_foldl_general ms []]
  simp [mapGet]

/-- The `pollStats` record of the poller document. -/
structure PollStats where
  totalPolls : Nat
  successfulPolls : Nat
  emptyPolls : Nat
  failedPolls : Nat
  lastPollTime : Option Int
  lastNonEmptyPollTime : Option Int
  consecutiveEmptyPolls : Nat
  deriving Repr, DecidableEq

def initialPollStats : PollStats :=
  { totalPolls := 0
    successfulPolls := 0
    emptyPolls := 0
    failedPolls := 0
    lastPollTime := none
    lastNonEmptyPollTime := none
    consecutiveEmptyPolls := 0 }

/-- The module-level mutable state the `poll` function touches:
`isPolling`, `pollStats`, and the cache it updates. -/
structure PollerState where
  isPolling : Bool
  pollStats : PollStats
  cache : Cache.CacheState
  deriving Repr, DecidableEq

def initialPollerState : PollerState :=
  { isPolling := false
    pollStats := initialPollStats
    cache := Cache.initialCache }

/-- The head of `poll` once past the `isPolling` guard: set the flag,
count the cycle, stamp `lastPollTime`. -/
def pollStart (now : Int) (s : PollerState) : PollerState :=
  { s with
    isPolling := true
    pollStats := { s.pollStats with
      totalPolls := s.pollStats.totalPolls + 1
      lastPollTime := some now } }

/-- The `try`/`catch`/`finally` tail of `poll`, applied to the settled
outcome of `fetchAllBoxes`: on a throw, count a failed poll and leave
the cache alone; on a result, track empty/non-empty stats and hand the
batch to `cache.update`; either way the `finally` clears `isPolling`. -/
def pollFinish (outcome : Except String (List Cache.Movement)) (now : Int)
    (s : PollerState) : PollerState :=
  match outcome with
  | .error _ =>
    { s with
      isPolling := false
      pollStats := { s.pollStats with failedPolls := s.pollStats.failedPolls + 1 } }
  | .ok movements =>
    let stats :=
      if movements.length = 0 then
        { s.pollStats with
          emptyPolls := s.pollStats.emptyPolls + 1
          consecutiveEmptyPolls := s.pollStats.consecutiveEmptyPolls + 1 }
      else
        { s.pollStats with
          successfulPolls := s.pollStats.successfulPolls + 1
          consecutiveEmptyPolls := 0
          lastNonEmptyPollTime := some now }
    { isPolling := false
      pollStats := stats
      cache := Cache.update movements now s.cache }

/-- One trigger of `poll`: skipped outright if a cycle is in flight,
otherwise the full guarded cycle with the given fetch outcome. -/
def poll (outcome : Except String (List Cache.Movement)) (now : Int)
    (s : PollerState) : PollerState :=
  if s.isPolling then s else pollFinish outcome now (pollStart now s)

end Poller

namespace RateLimitTracker

def RATE_LIMIT : Nat := 100

def WINDOW_MS : Int := 60 * 1000

/-- Function `cleanupOldRequests`: keep timestamps strictly newer than
`now - WINDOW_MS`. -/
def cleanupOldRequests (now : Int) (ts : List Int) : List Int :=
  ts.filter (fun t => decide (t > now - WINDOW_MS))

/-- JS `Math.round (num / den)` for nonnegative `num / den`, computed
exactly. -/
def mathRound (num den : Nat) : Nat := (2 * num + den) / (2 * den)

structure RateStats where
  count : Nat
  limit : Nat
  remaining : Int
  percentage : Nat
  isWarning : Bool
  isCritical : Bool
  deriving Repr, DecidableEq

/-- Source `rateLimitTracker.js` `getStats()`: prune, then report.  Returns the
pruned timestamp list (the mutated module state) together with the
stats record. -/
def getStats (now : Int) (ts : List Int) : List Int × RateStats :=
  let ts' := cleanupOldRequests now ts
  let count := ts'.length
  let percentage := mathRound (count * 100) RATE_LIMIT
  (ts',
   { count := count
     limit := RATE_LIMIT
     remaining := (RATE_LIMIT : Int) - count
     percentage := percentage
     isWarning := decide (percentage ≥ 50)
     isCritical := decide (percentage ≥ 80) })

/-- Function `recordRequest()`: push the current timestamp, prune, then return
`getStats()` (which prunes again — idempotent). -/
def recordRequest (now : Int) (ts : List Int) : List Int × RateStats :=
  getStats now (cleanupOldRequests now (ts ++ [now]))

/-- Recording a sequence of requests one after the other, starting from
the given stored list, each at its own wall-clock time. -/
def recordAll (times : List Int) (ts : List Int) : List Int :=
  times.foldl (fun acc t => (recordRequest t acc).1) ts

theorem WINDOW_MS_eq : WINDOW_MS = 60000 := by norm_num [WINDOW_MS]

theorem mathRound_mul_hundred (c : Nat) : mathRound (c * 100) 100 = c := by
  show (2 * (c * 100) + 100) / (2 * 100) = c
  have h : 2 * (c * 100) + 100 = 100 + 200 * c := by ring
  have h2 : 2 * 100 = 200 := by norm_num
  rw [h, h2, Nat.add_mul_div_left 100 c (by norm_num : 0 < 200)]
  norm_num

theorem cleanup_keep_all {now : Int} {ts : List Int}
    (h : ∀ t ∈ ts, now - 60000 < t) : cleanupOldRequests now ts = ts := by
  rw [cleanupOldRequests, List.filter_eq_self]
  intro a ha
  simp only [gt_iff_lt, decide_eq_true_eq, WINDOW_MS_eq]
  exact h a ha

theorem recordAll_no_prune (times : List Int) :
    ∀ (acc : List Int),
      (∀ a ∈ acc, ∀ u ∈ times, u - 60000 < a) →
      (∀ u ∈ times, ∀ v ∈ times, v - 60000 < u) →
      recordAll times acc = acc ++ times := by
  induction times with
  | nil => intro acc _ _; simp [recordAll]
  | cons t rest ih =>
    intro acc hacc hpair
    have hkeep : ∀ a ∈ acc ++ [t], t - 60000 < a := by
      intro a ha
      rcases List.mem_append.mp ha with h1 | h1
      · exact hacc a h1 t (List.mem_cons_self _ _)
      · have : a = t := List.mem_singleton.mp h1
        subst this
        omega
    have hstep : (recordRequest t acc).1 = acc ++ [t] := by
      show cleanupOldRequests t (cleanupOldRequests t (acc ++ [t])) = acc ++ [t]
      rw [cleanup_keep_all hkeep, cleanup_keep_all hkeep]
    show recordAll rest ((recordRequest t acc).1) = acc ++ t :: rest
    rw [hstep]
    have hrec := ih (acc ++ [t])
      (by
        intro a ha u hu
        rcases List.mem_append.mp ha with h1 | h1
        · exact hacc a h1 u (List.mem_cons_of_mem _ hu)
        · have : a = t := List.mem_singleton.mp h1
          subst this
          exact hpair a (List.mem_cons_self _ _) u (List.mem_cons_of_mem _ hu))
      (by
        intro u hu v hv
        exact hpair u (List.mem_cons_of_mem _ hu) v (List.mem_cons_of_mem _ hv))
    rw [hrec, List.append_assoc]
    rfl

end RateLimitTracker

namespace Server

/-- The `cache` sub-object of the `/health` body as the source builds
it.  Two slips in the source are modelled faithfully: the age is
written under the misspelled key `agemMs`, and the health flag reads
`stats.isHeathy` — a property `getStats()` never sets — so its value is
JS `undefined`, modelled as `none`. -/
structure HealthCache where
  count : Nat
  agemMs : Option Int
  isHealthy : Option Bool
  deriving Repr, DecidableEq

/-- The `/health` response: body fields plus the HTTP status code. -/
structure HealthResponse where
  status : String
  uptime : Int
  cache : HealthCache
  statusCode : Nat
  deriving Repr, DecidableEq

/-- The `/health` handler of the Express server document:
`status` and the status code follow `stats.isHealthy`; the body's
`cache.isHealthy` is the undefined `stats.isHeathy`. -/
def healthHandler (stats : Cache.CacheStats) (uptime : Int) : HealthResponse :=
  { status := if stats.isHealthy then "healthy" else "degraded"
    uptime := uptime
    cache := { count := stats.count, agemMs := stats.ageMs, isHealthy := none }
    statusCode := if stats.isHealthy then 200 else 503 }

end Server

/-- Sample normalized movement (spec scenario A). -/
def sampleM1 : Cache.Movement :=
  { name := "U2", direction := "Pankow", tripId := "t1"
    latitude := 5250, longitude := 1340, typeTag := "subway" }

/-- The same trip one poll later at a different position (scenario B). -/
def sampleM2 : Cache.Movement :=
  { name := "U2", direction := "Pankow", tripId := "t1"
    latitude := 5251, longitude := 1341, typeTag := "subway" }

/-- A second, distinct trip. -/
def sampleM3 : Cache.Movement :=
  { name := "S1", direction := "Wannsee", tripId := "t2"
    latitude := 5240, longitude := 1330, typeTag := "suburban" }

/-- Claim C1: an empty batch makes `update` increment the
consecutive-empty counter by exactly one and return without touching
the entity map, `lastUpdated`, or `updateCount`. -/
theorem claim_C1_empty_update_frame (B : List Cache.Movement) (now : Int)
    (c : Cache.CacheState) (h : B.length = 0) :
    (Cache.update B now c).consecutiveEmptyUpdates = c.consecutiveEmptyUpdates + 1 ∧
    (Cache.update B now c).movements = c.movements ∧
    (Cache.update B now c).lastUpdated = c.lastUpdated ∧
    (Cache.update B now c).updateCount = c.updateCount := by
  rw [Cache.update, if_pos h]
  exact ⟨rfl, rfl, rfl, rfl⟩

theorem claim_C1_empty_update_frame_witness :
    (Cache.update [] 7 Cache.initialCache).consecutiveEmptyUpdates =
        Cache.initialCache.consecutiveEmptyUpdates + 1 ∧
    (Cache.update [] 7 Cache.initialCache).movements = Cache.initialCache.movements ∧
    (Cache.update [] 7 Cache.initialCache).lastUpdated = Cache.initialCache.lastUpdated ∧
    (Cache.update [] 7 Cache.initialCache).updateCount = Cache.initialCache.updateCount :=
  claim_C1_empty_update_frame [] 7 Cache.initialCache rfl

/-- Claim C2: on a non-empty batch, `update` resets the
consecutive-empty counter, stamps `lastUpdated := now`, bumps
`updateCount` by exactly one, performs a full swap (ids absent from the
batch are dropped), shifts the old `current` coordinates and capture
time into `previous` for ids already cached (preserving `firstSeen`),
creates fresh entries with `previous = none` for new ids, and across
two consecutive non-empty updates at positions P1 then P2 the entity
ends with `previous = P1` and `current = P2`. -/
theorem claim_C2_nonempty_update_postcondition (b : List Cache.Movement) (now : Int)
    (c : Cache.CacheState) (hb : b ≠ []) :
    (Cache.update b now c).consecutiveEmptyUpdates = 0 ∧
    (Cache.update b now c).lastUpdated = some now ∧
    (Cache.update b now c).updateCount = c.updateCount + 1 ∧
    (∀ id, id ∉ b.map (fun nm => nm.tripId) →
      mapGet (Cache.update b now c).movements id = none) ∧
    (∀ id nm, Cache.lastOcc b id = some nm →
      ∀ v, mapGet c.movements id = some v →
        mapGet (Cache.update b now c).movements id = some
          { current := Cache.currentOf nm now
            previous := some
              { latitude := v.current.latitude
                longitude := v.current.longitude
                timestamp := v.current.timestamp }
            firstSeen := v.firstSeen }) ∧
    (∀ id nm, Cache.lastOcc b id = some nm →
      mapGet c.movements id = none →
        mapGet (Cache.update b now c).movements id = some
          { current := Cache.currentOf nm now
            previous := none
            firstSeen := now }) ∧
    (∀ (c0 : Cache.CacheState) (b1 b2 : List Cache.Movement) (t1 t2 : Int) (id : String)
        (m1 m2 : Cache.Movement),
      Cache.lastOcc b1 id = some m1 → Cache.lastOcc b2 id = some m2 →
      ∃ v, mapGet (Cache.update b2 t2 (Cache.update b1 t1 c0)).movements id = some v ∧
        v.current.latitude = m2.latitude ∧ v.current.longitude = m2.longitude ∧
        v.current.timestamp = t2 ∧
        v.previous = some
          { latitude := m1.latitude, longitude := m1.longitude, timestamp := t1 }) := by
  refine ⟨?_, ?_, ?_, ?_, ?_, ?_, ?_⟩
  · rw [Cache.update_nonempty b now c hb]
  · rw [Cache.update_nonempty b now c hb]
  · rw [Cache.update_nonempty b now c hb]
  · intro id hid
    rw [Cache.update_mapGet b now c hb id, Cache.lastOcc_eq_none_of_not_mem hid]
    rfl
  · intro id nm hlast v hv
    rw [Cache.update_mapGet b now c hb id, hlast]
    simp only [Option.map_some']
    rw [Cache.lastOcc_tripId hlast, hv]
    rfl
  · intro id nm hlast hnone
    rw [Cache.update_mapGet b now c hb id, hlast]
    simp only [Option.map_some']
    rw [Cache.lastOcc_tripId hlast, hnone]
    rfl
  · intro c0 b1 b2 t1 t2 id m1 m2 h1 h2
    have hb1 := Cache.lastOcc_ne_nil h1
    have hb2 := Cache.lastOcc_ne_nil h2
    have hv1 : mapGet (Cache.update b1 t1 c0).movements id =
        some (Cache.mkVehicle (mapGet c0.movements m1.tripId) m1 t1) := by
      rw [Cache.update_mapGet b1 t1 c0 hb1 id, h1]
      rfl
    refine ⟨Cache.mkVehicle (some (Cache.mkVehicle (mapGet c0.movements m1.tripId) m1 t1)) m2 t2,
      ?_, ?_, ?_, ?_, ?_⟩
    · rw [Cache.update_mapGet b2 t2 _ hb2 id, h2]
      simp only [Option.map_some']
      rw [Cache.lastOcc_tripId h2, hv1]
    · rw [Cache.mkVehicle_current]; rfl
    · rw [Cache.mkVehicle_current]; rfl
    · rw [Cache.mkVehicle_current]; rfl
    · rw [Cache.mkVehicle, Cache.mkVehicle_current]; rfl

theorem claim_C2_nonempty_update_postcondition_witness :
    (Cache.update [sampleM3] 5 Cache.initialCache).consecutiveEmptyUpdates = 0 ∧
    (Cache.update [sampleM3] 5 Cache.initialCache).lastUpdated = some 5 ∧
    (Cache.update [sampleM3] 5 Cache.initialCache).updateCount =
        Cache.initialCache.updateCount + 1 ∧
    (∀ id, id ∉ [sampleM3].map (fun nm => nm.tripId) →
      mapGet (Cache.update [sampleM3] 5 Cache.initialCache).movements id = none) ∧
    (∀ id nm, Cache.lastOcc [sampleM3] id = some nm →
      ∀ v, mapGet Cache.initialCache.movements id = some v →
        mapGet (Cache.update [sampleM3] 5 Cache.initialCache).movements id = some
          { current := Cache.currentOf nm 5
            previous := some
              { latitude := v.current.latitude
                longitude := v.current.longitude
                timestamp := v.current.timestamp }
            firstSeen := v.firstSeen }) ∧
    (∀ id nm, Cache.lastOcc [sampleM3] id = some nm →
      mapGet Cache.initialCache.movements id = none →
        mapGet (Cache.update [sampleM3] 5 Cache.initialCache).movements id = some
          { current := Cache.currentOf nm 5
            previous := none
            firstSeen := 5 }) ∧
    (∀ (c0 : Cache.CacheState) (b1 b2 : List Cache.Movement) (t1 t2 : Int) (id : String)
        (m1 m2 : Cache.Movement),
      Cache.lastOcc b1 id = some m1 → Cache.lastOcc b2 id = some m2 →
      ∃ v, mapGet (Cache.update b2 t2 (Cache.update b1 t1 c0)).movements id = some v ∧
        v.current.latitude = m2.latitude ∧ v.current.longitude = m2.longitude ∧
        v.current.timestamp = t2 ∧
        v.previous = some
          { latitude := m1.latitude, longitude := m1.longitude, timestamp := t1 }) :=
  claim_C2_nonempty_update_postcondition [sampleM3] 5 Cache.initialCache (by simp)

/-- Claim C3: `getStats` reports the entity count and `updateCount`,
`ageMs = now - lastUpdated` (and `none` exactly when no non-empty
update has ever been applied since module initialisation), and
`isHealthy` iff that age is under 60000 ms — true immediately after a
non-empty update, false once the age reaches the threshold, with empty
updates never advancing `lastUpdated`. -/
theorem claim_C3_getStats_contract (now : Int) (c : Cache.CacheState) :
    ((Cache.getStats now c).count = c.movements.length) ∧
    ((Cache.getStats now c).updateCount = c.updateCount) ∧
    ((Cache.getStats now c).lastUpdated = c.lastUpdated) ∧
    (∀ t, c.lastUpdated = some t →
      (Cache.getStats now c).ageMs = some (now - t) ∧
      ((Cache.getStats now c).isHealthy = true ↔ now - t < 60000)) ∧
    (c.lastUpdated = none →
      (Cache.getStats now c).ageMs = none ∧ (Cache.getStats now c).isHealthy = false) ∧
    (∀ (h : List (List Cache.Movement × Int)),
      (Cache.applyUpdates h Cache.initialCache).lastUpdated = none ↔ ∀ p ∈ h, p.1 = []) ∧
    (∀ (b : List Cache.Movement) (t : Int) (c' : Cache.CacheState), b ≠ [] →
      (Cache.getStats t (Cache.update b t c')).isHealthy = true) ∧
    (∀ t, c.lastUpdated = some t → 60000 ≤ now - t →
      (Cache.getStats now c).isHealthy = false) ∧
    (∀ (b : List Cache.Movement) (t : Int) (c' : Cache.CacheState), b.length = 0 →
      (Cache.update b t c').lastUpdated = c'.lastUpdated) := by
  refine ⟨rfl, rfl, rfl, ?_, ?_, ?_, ?_, ?_, ?_⟩
  · intro t ht
    constructor
    · simp [Cache.getStats, ht]
    · simp [Cache.getStats, ht]
  · intro h0
    constructor
    · simp [Cache.getStats, h0]
    · simp [Cache.getStats, h0]
  · intro h
    rw [Cache.applyUpdates_lastUpdated_none h Cache.initialCache]
    simp [Cache.initialCache]
  · intro b t c' hbne
    rw [Cache.update_nonempty b t c' hbne, Cache.getStats]
    simp
  · intro t ht hge
    have hnl : ¬ (now - t < 60000) := not_lt.mpr hge
    simp [Cache.getStats, ht, hnl]
  · intro b t c' h0
    rw [Cache.update_lastUpdated]
    simp [h0]

theorem claim_C3_getStats_contract_witness :
    (Cache.getStats 70000 (Cache.update [sampleM1] 5 Cache.initialCache)).ageMs =
        some (70000 - 5) ∧
    (Cache.getStats 70000 (Cache.update [sampleM1] 5 Cache.initialCache)).isHealthy = false ∧
    (Cache.getStats 5 (Cache.update [sampleM1] 5 Cache.initialCache)).isHealthy = true := by
  have h1 := claim_C3_getStats_contract 70000 (Cache.update [sampleM1] 5 Cache.initialCache)
  have h2 := claim_C3_getStats_contract 5 (Cache.update [sampleM1] 5 Cache.initialCache)
  have hlast : (Cache.update [sampleM1] 5 Cache.initialCache).lastUpdated = some 5 := by
    rw [Cache.update_lastUpdated]
    simp
  exact ⟨(h1.2.2.2.1 5 hlast).1,
    h1.2.2.2.2.2.2.2.1 5 hlast (by norm_num),
    h2.2.2.2.2.2.2.1 [sampleM1] 5 Cache.initialCache (by simp)⟩

/-- Claim C4: the aggregate of the per-tile result arrays is their
flattening in tile-configuration order with duplicate trip ids removed
keeping the first occurrence; in particular two tiles contributing the
same trip id leave exactly one aggregated entry for that id. -/
theorem claim_C4_aggregate_dedup_keeps_first (results : List (List Cache.Movement)) :
    Poller.aggregateResults results = keepFirstBy (fun m => m.tripId) results.flatten ∧
    (∀ id, id ∈ results.flatten.map (fun m => m.tripId) →
      (Poller.aggregateResults results).countP (fun m => m.tripId == id) = 1) ∧
    (∀ (ti tj : List Cache.Movement) (mi mj : Cache.Movement),
      ti ∈ results → tj ∈ results → mi ∈ ti → mj ∈ tj → mi.tripId = mj.tripId →
      (Poller.aggregateResults results).countP (fun m => m.tripId == mi.tripId) = 1) := by
  have hkey := Poller.aggregateDedup_eq_keepFirstBy results.flatten
  refine ⟨hkey, ?_, ?_⟩
  · intro id hid
    simp only [Poller.aggregateResults]
    rw [hkey, countP_keepFirstBy, if_pos hid]
  · intro ti tj mi mj hti htj hmi hmj hid
    have hmem : mi.tripId ∈ results.flatten.map (fun m => m.tripId) :=
      List.mem_map.mpr ⟨mi, List.mem_flatten.mpr ⟨ti, hti, hmi⟩, rfl⟩
    simp only [Poller.aggregateResults]
    rw [hkey, countP_keepFirstBy, if_pos hmem]

theorem claim_C4_aggregate_dedup_keeps_first_witness :
    Poller.aggregateResults [[sampleM1], [sampleM2]] =
        keepFirstBy (fun m => m.tripId) [[sampleM1], [sampleM2]].flatten ∧
    (Poller.aggregateResults [[sampleM1], [sampleM2]]).countP
        (fun m => m.tripId == sampleM1.tripId) = 1 := by
  have h := claim_C4_aggregate_dedup_keeps_first [[sampleM1], [sampleM2]]
  exact ⟨h.1, h.2.2 [sampleM1] [sampleM2] sampleM1 sampleM2 (by simp) (by simp)
    (by simp) (by simp) rfl⟩

/-- Claim C5: a trigger while `isPolling` is already set is skipped
with the state left completely unchanged (no queueing), so at most one
cycle runs at a time; and a full cycle always ends with `isPolling`
cleared, whether the fetch outcome was a result or a throw. -/
theorem claim_C5_scheduler_mutex_and_idle
    (outcome : Except String (List Cache.Movement)) (now : Int) (s : Poller.PollerState) :
    (s.isPolling = true → Poller.poll outcome now s = s) ∧
    (s.isPolling = false → (Poller.poll outcome now s).isPolling = false) ∧
    (∀ s', (Poller.pollFinish outcome now s').isPolling = false) := by
  refine ⟨?_, ?_, ?_⟩
  · intro h
    rw [Poller.poll, if_pos h]
  · intro h
    rw [Poller.poll, if_neg (by simp [h])]
    cases outcome <;> rfl
  · intro s'
    cases outcome <;> rfl

theorem claim_C5_scheduler_mutex_and_idle_witness :
    Poller.poll (Except.ok [sampleM1]) 1 (Poller.pollStart 0 Poller.initialPollerState) =
        Poller.pollStart 0 Poller.initialPollerState ∧
    (Poller.poll (Except.ok [sampleM1]) 1 Poller.initialPollerState).isPolling = false ∧
    (Poller.pollFinish (Except.error "fetch failed") 2 Poller.initialPollerState).isPolling
        = false :=
  ⟨(claim_C5_scheduler_mutex_and_idle (Except.ok [sampleM1]) 1
      (Poller.pollStart 0 Poller.initialPollerState)).1 rfl,
   (claim_C5_scheduler_mutex_and_idle (Except.ok [sampleM1]) 1
      Poller.initialPollerState).2.1 rfl,
   (claim_C5_scheduler_mutex_and_idle (Except.error "fetch failed") 2
      Poller.initialPollerState).2.2 Poller.initialPollerState⟩

/-- Claim C6: a throw in the fetch/aggregate phase is absorbed at the
scheduler boundary — the cycle is counted as failed, the cache record
(entities, `lastUpdated`, `updateCount`) is left exactly as it was, and
the scheduler returns to Idle. -/
theorem claim_C6_failed_cycle_leaves_cache_untouched (msg : String) (now : Int)
    (s : Poller.PollerState) (h : s.isPolling = false) :
    (Poller.poll (Except.error msg) now s).cache = s.cache ∧
    (Poller.poll (Except.error msg) now s).cache.movements = s.cache.movements ∧
    (Poller.poll (Except.error msg) now s).cache.lastUpdated = s.cache.lastUpdated ∧
    (Poller.poll (Except.error msg) now s).cache.updateCount = s.cache.updateCount ∧
    (Poller.poll (Except.error msg) now s).pollStats.failedPolls =
        s.pollStats.failedPolls + 1 ∧
    (Poller.poll (Except.error msg) now s).isPolling = false := by
  rw [Poller.poll, if_neg (by simp [h])]
  exact ⟨rfl, rfl, rfl, rfl, rfl, rfl⟩

theorem claim_C6_failed_cycle_leaves_cache_untouched_witness :
    (Poller.poll (Except.error "aggregation threw") 3 Poller.initialPollerState).cache =
        Poller.initialPollerState.cache ∧
    (Poller.poll (Except.error "aggregation threw") 3 Poller.initialPollerState).cache.movements =
        Poller.initialPollerState.cache.movements ∧
    (Poller.poll (Except.error "aggregation threw") 3 Poller.initialPollerState).cache.lastUpdated =
        Poller.initialPollerState.cache.lastUpdated ∧
    (Poller.poll (Except.error "aggregation threw") 3 Poller.initialPollerState).cache.updateCount =
        Poller.initialPollerState.cache.updateCount ∧
    (Poller.poll (Except.error "aggregation threw") 3 Poller.initialPollerState).pollStats.failedPolls =
        Poller.initialPollerState.pollStats.failedPolls + 1 ∧
    (Poller.poll (Except.error "aggregation threw") 3 Poller.initialPollerState).isPolling = false :=
  claim_C6_failed_cycle_leaves_cache_untouched "aggregation threw" 3
    Poller.initialPollerState rfl

/-- Claim C7: `fetchBox` never raises — each of its error paths
(non-success HTTP status, network/parse failure, and a body without a
`movements` array) yields the empty result for that tile only; on
success each raw movement is normalized; each tile's result depends
only on its own response (sibling isolation); and when every tile
fails the aggregate is just `[]`, which the cache's staleness guard
absorbs without touching the entity map. -/
theorem claim_C7_per_tile_failure_isolation :
    (Poller.fetchBox Poller.TileResponse.networkError = []) ∧
    (∀ status, Poller.fetchBox (Poller.TileResponse.httpError status) = []) ∧
    (Poller.fetchBox (Poller.TileResponse.success none) = []) ∧
    (∀ raws, Poller.fetchBox (Poller.TileResponse.success (some raws)) =
      raws.map Poller.normalizeMovement) ∧
    (∀ (responses : List Poller.TileResponse) (i : Fin responses.length),
      (responses.map Poller.fetchBox).get ⟨i.1, by simp⟩ =
        Poller.fetchBox (responses.get i)) ∧
    (∀ responses, (∀ r ∈ responses, Poller.isFailure r = true) →
      Poller.fetchAllBoxes responses = []) ∧
    (∀ responses (now : Int) (c : Cache.CacheState),
      (∀ r ∈ responses, Poller.isFailure r = true) →
      (Cache.update (Poller.fetchAllBoxes responses) now c).movements = c.movements) := by
  have hempty : ∀ (responses : List Poller.TileResponse),
      (∀ r ∈ responses, Poller.isFailure r = true) →
      Poller.fetchAllBoxes responses = [] := by
    intro responses hfail
    have hall : ∀ r ∈ responses, Poller.fetchBox r = [] := by
      intro r hr
      have hf := hfail r hr
      cases r with
      | networkError => rfl
      | httpError status => rfl
      | success m => simp [Poller.isFailure] at hf
    have hflat : (responses.map Poller.fetchBox).flatten = [] := by
      rw [List.flatten_eq_nil_iff]
      intro l hl
      rcases List.mem_map.mp hl with ⟨r, hr, hrl⟩
      rw [← hrl]
      exact hall r hr
    rw [Poller.fetchAllBoxes, hflat]
    rfl
  refine ⟨rfl, fun _ => rfl, rfl, fun _ => rfl, ?_, hempty, ?_⟩
  · intro responses i
    simp
  · intro responses now c hfail
    rw [hempty responses hfail, Cache.update]
    rfl

theorem claim_C7_per_tile_failure_isolation_witness :
    Poller.fetchAllBoxes
        [Poller.TileResponse.networkError, Poller.TileResponse.httpError 429] = [] ∧
    (Cache.update
        (Poller.fetchAllBoxes
          [Poller.TileResponse.networkError, Poller.TileResponse.httpError 429])
        8 Cache.initialCache).movements = Cache.initialCache.movements ∧
    Poller.fetchBox (Poller.TileResponse.httpError 429) = [] := by
  have h := claim_C7_per_tile_failure_isolation
  refine ⟨h.2.2.2.2.2.1
      [Poller.TileResponse.networkError, Poller.TileResponse.httpError 429] ?_,
    h.2.2.2.2.2.2
      [Poller.TileResponse.networkError, Poller.TileResponse.httpError 429]
      8 Cache.initialCache ?_,
    h.2.1 429⟩
  · intro r hr
    rcases List.mem_cons.mp hr with h1 | h1
    · rw [h1]; rfl
    · rcases List.mem_cons.mp h1 with h2 | h2
      · rw [h2]; rfl
      · exact absurd h2 (List.not_mem_nil r)
  · intro r hr
    rcases List.mem_cons.mp hr with h1 | h1
    · rw [h1]; rfl
    · rcases List.mem_cons.mp h1 with h2 | h2
      · rw [h2]; rfl
      · exact absurd h2 (List.not_mem_nil r)

/-- Claim C8 (code bug in the `/health` handler): the `status` string
and the HTTP status code do follow the cache's `isHealthy` flag
(`"healthy"`/200 when true, `"degraded"`/503 otherwise), but the body's
`cache` object does NOT have the claimed shape: the source writes the
age under the misspelled key `agemMs`, and assigns `isHealthy` from
`stats.isHeathy` — a property `getStats()` never returns — so the
serialized body omits `cache.isHealthy` (undefined, modelled `none`)
even while the cache is healthy. -/
theorem claim_C8_health_endpoint_bug :
    (Server.healthHandler
        (Cache.getStats 1000 (Cache.update [sampleM1] 1000 Cache.initialCache)) 42 =
      { status := "healthy"
        uptime := 42
        cache := { count := 1, agemMs := some 0, isHealthy := none }
        statusCode := 200 }) ∧
    ((Cache.getStats 1000 (Cache.update [sampleM1] 1000 Cache.initialCache)).isHealthy
        = true) ∧
    (∀ (stats : Cache.CacheStats) (uptime : Int),
      (Server.healthHandler stats uptime).cache.isHealthy = none ∧
      ((Server.healthHandler stats uptime).status = "healthy" ↔ stats.isHealthy = true) ∧
      ((Server.healthHandler stats uptime).statusCode = 200 ↔ stats.isHealthy = true) ∧
      ((Server.healthHandler stats uptime).status = "degraded" ↔ stats.isHealthy = false) ∧
      ((Server.healthHandler stats uptime).statusCode = 503 ↔ stats.isHealthy = false)) := by
  refine ⟨by decide, by decide, ?_⟩
  intro stats uptime
  cases hs : stats.isHealthy with
  | false =>
    exact ⟨rfl, by simp [Server.healthHandler, hs], by simp [Server.healthHandler, hs],
      by simp [Server.healthHandler, hs], by simp [Server.healthHandler, hs]⟩
  | true =>
    exact ⟨rfl, by simp [Server.healthHandler, hs], by simp [Server.healthHandler, hs],
      by simp [Server.healthHandler, hs], by simp [Server.healthHandler, hs]⟩

/-- Claim C9: `recordRequest` appends the current timestamp, prunes the
trailing 60-second window, and returns the current stats;
`getStats` prunes then reports count, limit, `remaining = limit - count`,
the rounded percentage (with the limit of 100 it equals the count),
`isWarning` iff the percentage is at least 50 and `isCritical` iff at
least 80; R requests recorded inside a shared 60-second window are all
counted, and once the clock passes every timestamp by 60 s the count is
zero. -/
theorem claim_C9_rate_tracker_contract (now : Int) (ts : List Int) :
    (RateLimitTracker.recordRequest now ts =
      RateLimitTracker.getStats now
        (RateLimitTracker.cleanupOldRequests now (ts ++ [now]))) ∧
    ((RateLimitTracker.getStats now ts).1 =
      RateLimitTracker.cleanupOldRequests now ts) ∧
    ((RateLimitTracker.getStats now ts).2.count =
      (RateLimitTracker.cleanupOldRequests now ts).length) ∧
    ((RateLimitTracker.getStats now ts).2.limit = RateLimitTracker.RATE_LIMIT) ∧
    ((RateLimitTracker.getStats now ts).2.remaining =
      (RateLimitTracker.RATE_LIMIT : Int) - (RateLimitTracker.getStats now ts).2.count) ∧
    ((RateLimitTracker.getStats now ts).2.percentage =
      (RateLimitTracker.getStats now ts).2.count) ∧
    ((RateLimitTracker.getStats now ts).2.isWarning = true ↔
      50 ≤ (RateLimitTracker.getStats now ts).2.percentage) ∧
    ((RateLimitTracker.getStats now ts).2.isCritical = true ↔
      80 ≤ (RateLimitTracker.getStats now ts).2.percentage) ∧
    (∀ (times : List Int) (t : Int),
      (∀ u ∈ times, ∀ v ∈ times, v - 60000 < u) →
      (∀ u ∈ times, t - 60000 < u) →
      (RateLimitTracker.getStats t (RateLimitTracker.recordAll times [])).2.count =
        times.length) ∧
    (∀ (old : List Int) (t : Int), (∀ u ∈ old, u + 60000 ≤ t) →
      (RateLimitTracker.getStats t old).2.count = 0) := by
  refine ⟨rfl, rfl, rfl, rfl, rfl, ?_, ?_, ?_, ?_, ?_⟩
  · exact RateLimitTracker.mathRound_mul_hundred _
  · simp [RateLimitTracker.getStats]
  · simp [RateLimitTracker.getStats]
  · intro times t hpair ht
    rw [RateLimitTracker.recordAll_no_prune times []
      (by intro a ha; exact absurd ha (List.not_mem_nil a)) hpair]
    show (RateLimitTracker.cleanupOldRequests t ([] ++ times)).length = times.length
    rw [List.nil_append, RateLimitTracker.cleanup_keep_all ht]
  · intro old t h
    show (RateLimitTracker.cleanupOldRequests t old).length = 0
    rw [List.length_eq_zero, RateLimitTracker.cleanupOldRequests, List.filter_eq_nil_iff]
    intro a ha
    have := h a ha
    simp only [gt_iff_lt, decide_eq_true_eq, RateLimitTracker.WINDOW_MS_eq, not_lt]
    omega

theorem claim_C9_rate_tracker_contract_witness :
    (RateLimitTracker.getStats 300 (RateLimitTracker.recordAll [100, 200] [])).2.count = 2 ∧
    (RateLimitTracker.getStats 70000 [0]).2.count = 0 ∧
    (RateLimitTracker.getStats 300 [100]).2.percentage =
      (RateLimitTracker.getStats 300 [100]).2.count := by
  refine ⟨?_, ?_, (claim_C9_rate_tracker_contract 300 [100]).2.2.2.2.2.1⟩
  · exact (claim_C9_rate_tracker_contract 0 []).2.2.2.2.2.2.2.2.1 [100, 200] 300
      (by decide) (by decide)
  · exact (claim_C9_rate_tracker_contract 0 []).2.2.2.2.2.2.2.2.2 [0] 70000 (by decide)

/-- Claim C10 (implicit): when a non-empty batch contains several
records with the same trip id, the LAST occurrence in batch order wins
— it supplies the stored `current` data — the resulting entity count is
the number of DISTINCT trip ids in the batch, and this is the opposite
tie-break of the aggregator, which keeps the FIRST occurrence. -/
theorem claim_C10_duplicate_batch_last_wins (b : List Cache.Movement) (now : Int)
    (c : Cache.CacheState) (hb : b ≠ []) :
    (∀ id nm, Cache.lastOcc b id = some nm →
      ∃ v, mapGet (Cache.update b now c).movements id = some v ∧
        v.current.latitude = nm.latitude ∧ v.current.longitude = nm.longitude ∧
        v.current.name = nm.name ∧ v.current.direction = nm.direction ∧
        v.current.typeTag = nm.typeTag) ∧
    ((Cache.update b now c).movements.length =
      (b.map (fun nm => nm.tripId)).dedup.length) ∧
    (∀ (m1 m2 : Cache.Movement) (t : Int) (c0 : Cache.CacheState),
      m1.tripId = m2.tripId →
      (∃ v, mapGet (Cache.update [m1, m2] t c0).movements m2.tripId = some v ∧
        v.current.latitude = m2.latitude ∧ v.current.longitude = m2.longitude) ∧
      Poller.aggregateDedup [m1, m2] = [m1]) := by
  refine ⟨?_, Cache.update_size_distinct b now c hb, ?_⟩
  · intro id nm hlast
    refine ⟨Cache.mkVehicle (mapGet c.movements nm.tripId) nm now, ?_, ?_, ?_, ?_, ?_, ?_⟩
    · rw [Cache.update_mapGet b now c hb id, hlast]
      rfl
    · rw [Cache.mkVehicle_current]; rfl
    · rw [Cache.mkVehicle_current]; rfl
    · rw [Cache.mkVehicle_current]; rfl
    · rw [Cache.mkVehicle_current]; rfl
    · rw [Cache.mkVehicle_current]; rfl
  · intro m1 m2 t c0 hid
    constructor
    · have hlast : Cache.lastOcc [m1, m2] m2.tripId = some m2 := by
        simp [Cache.lastOcc]
      refine ⟨Cache.mkVehicle (mapGet c0.movements m2.tripId) m2 t, ?_, ?_, ?_⟩
      · rw [Cache.update_mapGet [m1, m2] t c0 (by simp) m2.tripId, hlast]
        rfl
      · rw [Cache.mkVehicle_current]; rfl
      · rw [Cache.mkVehicle_current]; rfl
    · rw [Poller.aggregateDedup_eq_keepFirstBy, keepFirstBy_cons]
      have : [m2].filter (fun y => !(y.tripId == m1.tripId)) = [] := by
        simp [hid]
      rw [this, keepFirstBy_nil]

theorem claim_C10_duplicate_batch_last_wins_witness :
    (∀ id nm, Cache.lastOcc [sampleM1, sampleM2] id = some nm →
      ∃ v, mapGet (Cache.update [sampleM1, sampleM2] 9 Cache.initialCache).movements id =
          some v ∧
        v.current.latitude = nm.latitude ∧ v.current.longitude = nm.longitude ∧
        v.current.name = nm.name ∧ v.current.direction = nm.direction ∧
        v.current.typeTag = nm.typeTag) ∧
    ((Cache.update [sampleM1, sampleM2] 9 Cache.initialCache).movements.length =
      ([sampleM1, sampleM2].map (fun nm => nm.tripId)).dedup.length) ∧
    (∀ (m1 m2 : Cache.Movement) (t : Int) (c0 : Cache.CacheState),
      m1.tripId = m2.tripId →
      (∃ v, mapGet (Cache.update [m1, m2] t c0).movements m2.tripId = some v ∧
        v.current.latitude = m2.latitude ∧ v.current.longitude = m2.longitude) ∧
      Poller.aggregateDedup [m1, m2] = [m1]) :=
  claim_C10_duplicate_batch_last_wins [sampleM1, sampleM2] 9 Cache.initialCache (by simp)
